import Mathlib

/-!
Verification development for the openfoodfacts-query service.

The definitions below are a shallow embedding of the query-translation
engine in `src/domain/services/query.service.ts` (filter normalisation,
per-clause compilation, the `count` / `select` / `aggregate` operations and
the popularity-ranked `find` re-ordering loop), together with models of the
event-ingestion behaviour (`MessagesService`) that is pinned down by the
spec and by the unit tests shipped in the repository.

JavaScript values flowing through the service are modelled by `JsonValue`;
JavaScript truthiness, property access, `Object.keys`, `Object.entries` and
`for ... of` iteration are modelled by the helpers that follow it.
-/

/-- A JSON/JavaScript value as handled by the query service.  `vnull` models
both JSON `null` and the places where the service observes `null` message
fields; `undefined` is modelled by `Option.none` at the use sites. -/
inductive JsonValue where
  | vnull
  | bool (b : Bool)
  | num (n : Int)
  | str (s : String)
  | arr (xs : List JsonValue)
  | obj (fields : List (String × JsonValue))

mutual

def JsonValue.decEq : (a b : JsonValue) → Decidable (a = b)
  | .vnull, .vnull => isTrue rfl
  | .bool a, .bool b =>
    if h : a = b then isTrue (by rw [h]) else isFalse (by intro hh; cases hh; exact h rfl)
  | .num a, .num b =>
    if h : a = b then isTrue (by rw [h]) else isFalse (by intro hh; cases hh; exact h rfl)
  | .str a, .str b =>
    if h : a = b then isTrue (by rw [h]) else isFalse (by intro hh; cases hh; exact h rfl)
  | .arr xs, .arr ys =>
    match JsonValue.decEqList xs ys with
    | isTrue h => isTrue (by rw [h])
    | isFalse h => isFalse (by intro hh; cases hh; exact h rfl)
  | .obj xs, .obj ys =>
    match JsonValue.decEqFields xs ys with
    | isTrue h => isTrue (by rw [h])
    | isFalse h => isFalse (by intro hh; cases hh; exact h rfl)
  | .vnull, .bool _ => isFalse (by intro h; cases h)
  | .vnull, .num _ => isFalse (by intro h; cases h)
  | .vnull, .str _ => isFalse (by intro h; cases h)
  | .vnull, .arr _ => isFalse (by intro h; cases h)
  | .vnull, .obj _ => isFalse (by intro h; cases h)
  | .bool _, .vnull => isFalse (by intro h; cases h)
  | .bool _, .num _ => isFalse (by intro h; cases h)
  | .bool _, .str _ => isFalse (by intro h; cases h)
  | .bool _, .arr _ => isFalse (by intro h; cases h)
  | .bool _, .obj _ => isFalse (by intro h; cases h)
  | .num _, .vnull => isFalse (by intro h; cases h)
  | .num _, .bool _ => isFalse (by intro h; cases h)
  | .num _, .str _ => isFalse (by intro h; cases h)
  | .num _, .arr _ => isFalse (by intro h; cases h)
  | .num _, .obj _ => isFalse (by intro h; cases h)
  | .str _, .vnull => isFalse (by intro h; cases h)
  | .str _, .bool _ => isFalse (by intro h; cases h)
  | .str _, .num _ => isFalse (by intro h; cases h)
  | .str _, .arr _ => isFalse (by intro h; cases h)
  | .str _, .obj _ => isFalse (by intro h; cases h)
  | .arr _, .vnull => isFalse (by intro h; cases h)
  | .arr _, .bool _ => isFalse (by intro h; cases h)
  | .arr _, .num _ => isFalse (by intro h; cases h)
  | .arr _, .str _ => isFalse (by intro h; cases h)
  | .arr _, .obj _ => isFalse (by intro h; cases h)
  | .obj _, .vnull => isFalse (by intro h; cases h)
  | .obj _, .bool _ => isFalse (by intro h; cases h)
  | .obj _, .num _ => isFalse (by intro h; cases h)
  | .obj _, .str _ => isFalse (by intro h; cases h)
  | .obj _, .arr _ => isFalse (by intro h; cases h)

def JsonValue.decEqList : (xs ys : List JsonValue) → Decidable (xs = ys)
  | [], [] => isTrue rfl
  | [], _ :: _ => isFalse (by intro h; cases h)
  | _ :: _, [] => isFalse (by intro h; cases h)
  | x :: xs, y :: ys =>
    match JsonValue.decEq x y with
    | isTrue h1 =>
      match JsonValue.decEqList xs ys with
      | isTrue h2 => isTrue (by rw [h1, h2])
      | isFalse h2 => isFalse (by intro hh; cases hh; exact h2 rfl)
    | isFalse h1 => isFalse (by intro hh; cases hh; exact h1 rfl)

def JsonValue.decEqFields : (xs ys : List (String × JsonValue)) → Decidable (xs = ys)
  | [], [] => isTrue rfl
  | [], _ :: _ => isFalse (by intro h; cases h)
  | _ :: _, [] => isFalse (by intro h; cases h)
  | (k, v) :: xs, (k2, v2) :: ys =>
    if hk : k = k2 then
      match JsonValue.decEq v v2 with
      | isTrue h1 =>
        match JsonValue.decEqFields xs ys with
        | isTrue h2 => isTrue (by rw [hk, h1, h2])
        | isFalse h2 => isFalse (by intro hh; cases hh; exact h2 rfl)
      | isFalse h1 => isFalse (by intro hh; cases hh; exact h1 rfl)
    else isFalse (by intro hh; cases hh; exact hk rfl)

end

instance : DecidableEq JsonValue := JsonValue.decEq

deriving instance DecidableEq for Except

/-- JavaScript truthiness of a value (`NaN` is not modelled). -/
def truthy : JsonValue → Bool
  | .vnull => false
  | .bool b => b
  | .num n => n != 0
  | .str s => s != ""
  | .arr _ => true
  | .obj _ => true

/-- Truthiness of a possibly-`undefined` value (`none` = `undefined`). -/
def optTruthy : Option JsonValue → Bool
  | none => false
  | some v => truthy v

/-- JavaScript property access `v[k]`; `none` models `undefined`.  Strings
and arrays expose their `length`; an object field list is looked up by key
(object literals in the modelled requests have distinct keys). -/
def getProp : JsonValue → String → Option JsonValue
  | .obj fs, k => fs.lookup k
  | .str s, k => if k = "length" then some (.num s.length) else none
  | .arr xs, k => if k = "length" then some (.num xs.length) else none
  | _, _ => none

/-- `Object.keys`: field names for objects, index strings for arrays,
`[]` for primitives (the service never reaches this for `null`). -/
def objKeys : JsonValue → List String
  | .obj fs => fs.map (fun f => f.1)
  | .arr xs => (List.range xs.length).map (fun i => toString i)
  | _ => []

/-- `v === Object(v)`: true exactly for objects and arrays. -/
def isObject : JsonValue → Bool
  | .obj _ => true
  | .arr _ => true
  | _ => false

/-- `for ... of` iteration: arrays yield their elements, strings yield
their characters as one-character strings; other values are not iterable
(`none`, which surfaces as a `TypeError` at the use sites). -/
def jsIterate : JsonValue → Option (List JsonValue)
  | .arr xs => some xs
  | .str s => some (s.data.map (fun c => .str ⟨[c]⟩))
  | _ => none

/-- `Object.entries` of a string: index/character pairs. -/
def stringEntries (s : String) : List (String × JsonValue) :=
  s.data.enum.map (fun p => (toString p.1, JsonValue.str ⟨[p.2]⟩))

/-- Errors surfaced by the query service: `unprocessable` models a thrown
`UnprocessableEntityException` (the deliberate client-input error path),
`typeError` models a raw JavaScript `TypeError` escaping from the code. -/
inductive QErr where
  | unprocessable (msg : String)
  | typeError (msg : String)
deriving DecidableEq

/-- The static tag schema the service consults: `MAPPED_FIELDS` of the
`Product` entity, the keys of `ProductTagMap.MAPPED_TAGS`, and the
loaded-tag registry returned by `tagService.getLoadedTags()`.  Those
definitions live outside the query service, so they are parameters of the
model. -/
structure Schema where
  mappedFields : List String
  mappedTags : List String
  loadedTags : List String

/-- The entity a tag resolves to: the `Product` row itself, or the
dedicated tag table of a collection-valued tag. -/
inductive Entity where
  | product
  | tagTable (tag : String)
deriving DecidableEq

/-- `QueryService.getEntityAndColumn`: a falsy or `MAPPED_FIELDS` tag
resolves to a `Product` column named after the tag; a `MAPPED_TAGS` tag
resolves to its tag table with the fixed `value` column, but only once the
tag is in the loaded-tag registry; anything else is unsupported. -/
def getEntityAndColumn (s : Schema) (tag : String) : Except QErr (Entity × String) :=
  if tag = "" ∨ s.mappedFields.contains tag then
    .ok (.product, tag)
  else if s.mappedTags.contains tag then
    if s.loadedTags.contains tag then .ok (.tagTable tag, "value")
    else .error (.unprocessable "Tag is not loaded")
  else .error (.unprocessable "Tag is not supported")

/-- The `whereValue` a clause compiles to.  `none_` is JavaScript
`undefined` (a bare EXISTS / NOT EXISTS with no value comparison);
`val .vnull` is a `null` where-value, which the ORM renders as an
`IS NULL` test; `val v` compares the column with the scalar `v`;
`inList vs` is an `IN` over the listed scalars. -/
inductive CompiledValue where
  | none_
  | val (v : JsonValue)
  | inList (vs : List JsonValue)
deriving DecidableEq

/-- One compiled filter clause: the resolved entity and column, the
negation flag (`NOT EXISTS` when set) and the compiled where-value. -/
structure CompiledClause where
  entity : Entity
  column : String
  not : Bool
  value : CompiledValue
deriving DecidableEq

/-- The `$ne` unwrapping step shared by `addMatches` and `getFilterSql`:
`not` starts as the truthiness of `matchValue?.['$ne']`, and when that is
truthy the `$ne` operand becomes the effective where-value. -/
def effectiveValue (matchValue : JsonValue) : Bool × JsonValue :=
  match getProp matchValue "$ne" with
  | some nv => if truthy nv then (true, nv) else (false, matchValue)
  | none => (false, matchValue)

/-- The single-key `$in`/`$nin` shape test of the object branch,
mirroring the short-circuit order of
`keys.length != 1 || !['$in','$nin'].includes(operator) ||
!whereValue[operator].length`: the value must have exactly one key and
that key must be `$in` or `$nin` (else the unprocessable error); only then
is `whereValue[operator].length` evaluated — a `null` operand makes that
dereference raise a raw `TypeError`, and a non-null operand with falsy
`length` raises the unprocessable error.  On success returns the operator
and its operand. -/
def inShape (wv : JsonValue) : Except QErr (String × JsonValue) :=
  match objKeys wv with
  | [op] =>
    if op = "$in" ∨ op = "$nin" then
      match (getProp wv op).getD .vnull with
      | .vnull => .error (.typeError "cannot read length of null")
      | opVal =>
        if optTruthy (getProp opVal "length") then .ok (op, opVal)
        else .error (.unprocessable "Unable to process value")
    else .error (.unprocessable "Unable to process value")
  | _ => .error (.unprocessable "Unable to process value")

/-- The `value == null || value.length === 0` sentinel test of the list
scan: `null` and any value whose `length` property is `0` (empty array,
empty string). -/
def isSentinel (v : JsonValue) : Bool :=
  v = .vnull || getProp v "length" = some (.num 0)

/-- The scan over an `$in` list: stops with `true` at the first absence
sentinel, raises the unprocessable error at a non-scalar element found
before any sentinel, and returns `false` when every element is a plain
scalar. -/
def findSentinel : List JsonValue → Except QErr Bool
  | [] => .ok false
  | v :: rest =>
    if isSentinel v then .ok true
    else if isObject v then .error (.unprocessable "Unable to process value")
    else findSentinel rest

/-- Per-clause compilation, the body of the `for` loop shared verbatim by
`QueryService.addMatches` and `QueryService.getFilterSql`: resolve the tag,
unwrap `$ne`, then for object values insist on a non-empty single-key
`$in`/`$nin`, rewrite `$nin` to `$in` with the negation flag flipped, and
scan the list for the null/empty absence sentinel, which compiles to an
`IS NULL` where-value on `Product` columns and to a bare (NOT) EXISTS with
the negation flag flipped on tag tables. -/
def compileClause (s : Schema) (matchTag : String) (matchValue : JsonValue) :
    Except QErr CompiledClause := do
  let (matchEntity, matchColumn) ← getEntityAndColumn s matchTag
  let (not1, wv1) := effectiveValue matchValue
  if isObject wv1 then
    match inShape wv1 with
    | .error e => .error e
    | .ok (op, opVal) =>
      let not2 := if op = "$nin" then !not1 else not1
      match jsIterate opVal with
      | none => .error (.typeError "value is not iterable")
      | some items =>
        match findSentinel items with
        | .error e => .error e
        | .ok true =>
          if matchEntity = .product then
            .ok ⟨matchEntity, matchColumn, not2, .val .vnull⟩
          else
            .ok ⟨matchEntity, matchColumn, !not2, .none_⟩
        | .ok false =>
          .ok ⟨matchEntity, matchColumn, not2, .inList items⟩
  else
    .ok ⟨matchEntity, matchColumn, not1, .val wv1⟩

/-- `QueryService.addMatches` (and equally the loop of `getFilterSql`):
compile the normalised clauses in order, aborting at the first failure. -/
def addMatches (s : Schema) : List (String × JsonValue) → Except QErr (List CompiledClause)
  | [] => .ok []
  | (t, v) :: rest => do
    let c ← compileClause s t v
    let cs ← addMatches s rest
    .ok (c :: cs)

theorem exceptBind_ok {ε α β : Type} (a : α) (f : α → Except ε β) :
    (Except.ok a >>= f) = f a := rfl

theorem exceptBind_err {ε α β : Type} (e : ε) (f : α → Except ε β) :
    ((Except.error e : Except ε α) >>= f) = .error e := rfl

/-- One non-`$and` entry of a filter object, as handled by
`QueryService.parseFilter`: a truthy `$all` value is iterated and each
element pushed as a clause for the same tag; otherwise the entry itself
becomes a clause.  A `null` clause value raises a raw `TypeError` at the
bare `filter[1]['$all']` access, and a non-iterable truthy `$all` value
raises a `TypeError` exactly as `for ... of` would. -/
def parseFilterField (k : String) (v : JsonValue) :
    Except QErr (List (String × JsonValue)) :=
  -- `filter[1]['$all']` is a bare property access: on a `null` clause
  -- value it raises a raw `TypeError` before any tag resolution.
  match v with
  | .vnull => .error (.typeError "cannot read properties of null")
  | _ =>
    match getProp v "$all" with
    | some all =>
      if truthy all then
        match jsIterate all with
        | some vs => .ok (vs.map (fun x => (k, x)))
        | none => .error (.typeError "value is not iterable")
      else .ok [(k, v)]
    | none => .ok [(k, v)]

/-- `Object.entries` of an array input to `parseFilter`: the keys are the
index strings, which are never the `$and` marker, so each entry goes
through the plain field handling. -/
def parseFilterElems (i : Nat) : List JsonValue → Except QErr (List (String × JsonValue))
  | [] => .ok []
  | v :: rest => do
    let head ← parseFilterField (toString i) v
    let tail ← parseFilterElems (i + 1) rest
    .ok (head ++ tail)

mutual

/-- `QueryService.parseFilter`: flatten a filter into a plain list of
(tag, value) clauses.  `Object.entries` of `null` raises a `TypeError`;
entries of a string are its index/character pairs (no key is `$and` and no
single-character value has an `$all` property, so they are pushed as-is);
entries of other primitives are empty. -/
def parseFilter : JsonValue → Except QErr (List (String × JsonValue))
  | .obj fs => parseFilterFields fs
  | .vnull => .error (.typeError "cannot convert null or undefined to object")
  | .str s => .ok (stringEntries s)
  | .arr xs => parseFilterElems 0 xs
  | _ => .ok []

/-- The entry loop of `parseFilter`: an `$and` entry iterates its value and
splices in the recursively parsed sub-filters (a non-iterable `$and` value
raises a `TypeError`); any other entry goes through the `$all` handling. -/
def parseFilterFields : List (String × JsonValue) → Except QErr (List (String × JsonValue))
  | [] => .ok []
  | (k, v) :: rest => do
    let head ←
      if k = "$and" then
        match v with
        | .arr subs => parseFilterList subs
        | .str s =>
          -- Iterating a string yields one-character strings; parsing each
          -- such string yields its single index/character entry.
          .ok (s.data.map (fun c => ("0", JsonValue.str ⟨[c]⟩)))
        | _ => .error (.typeError "value is not iterable")
      else parseFilterField k v
    let tail ← parseFilterFields rest
    .ok (head ++ tail)

/-- Concatenation of the parses of the sub-filters of an `$and` entry. -/
def parseFilterList : List JsonValue → Except QErr (List (String × JsonValue))
  | [] => .ok []
  | v :: vs => do
    let h ← parseFilter v
    let t ← parseFilterList vs
    .ok (h ++ t)

end

/-- One mirrored `Product` row: surrogate id, natural code, obsolete flag,
and the flattened tag columns (`vnull` models SQL NULL). -/
structure ProductRow where
  id : Nat
  code : String
  obsolete : Bool
  fields : String → JsonValue

/-- One row of a per-tag table: product reference, tag value, obsolete
flag. -/
structure TagRow where
  product_id : Nat
  value : JsonValue
  obsolete : Bool

/-- The relational mirror the compiled queries run against. -/
structure DB where
  products : List ProductRow
  tagRows : String → List TagRow

/-- `QueryService.obsoleteWhere` applied to a row: `pt.obsolete` when
obsolete products are requested, `not pt.obsolete` otherwise. -/
def obsoleteWhere (obsolete : Bool) (rowObsolete : Bool) : Bool :=
  if obsolete then rowObsolete else !rowObsolete

/-- SQL scalar equality: NULL compares false against everything, and only
like-typed scalars compare equal.  (Bound parameters of the compiled
clauses are always scalars, so no deep comparison arises.) -/
def sqlEq : JsonValue → JsonValue → Bool
  | .bool a, .bool b => a == b
  | .num a, .num b => a == b
  | .str a, .str b => a == b
  | _, _ => false

/-- Evaluation of a compiled where-value against a column value. -/
def evalCompiledValue : CompiledValue → JsonValue → Bool
  | .none_, _ => true
  | .val .vnull, colVal => colVal = .vnull
  | .val v, colVal => sqlEq colVal v
  | .inList vs, colVal => vs.any (fun v => sqlEq colVal v)

/-- One compiled clause as a correlated (NOT) EXISTS sub-query against the
row of the outer query whose product id is `pid`: the sub-query joins the
clause's entity on its product id column and applies the where-value, and
the negation flag turns EXISTS into NOT EXISTS. -/
def clauseMatches (db : DB) (c : CompiledClause) (pid : Nat) : Bool :=
  let inner :=
    match c.entity with
    | .product => db.products.any (fun p2 => p2.id == pid && evalCompiledValue c.value (p2.fields c.column))
    | .tagTable t => (db.tagRows t).any (fun r => r.product_id == pid && evalCompiledValue c.value r.value)
  if c.not then !inner else inner

/-- `QueryService.select`: parse and compile the filter with `Product` as
the outer entity and return every product row satisfying all compiled
clauses — with no obsolete restriction. -/
def select (s : Schema) (db : DB) (body : JsonValue) : Except QErr (List ProductRow) := do
  let filters ← parseFilter body
  let clauses ← addMatches s filters
  .ok (db.products.filter (fun p => clauses.all (fun c => clauseMatches db c p.id)))

/-- `QueryService.count`: like `select` but with the `obsoleteWhere`
predicate always ANDed in, returning the number of matching products.  A
nullish body is replaced by the empty filter. -/
def nullishToEmpty : JsonValue → JsonValue
  | .vnull => JsonValue.obj []
  | b => b

def count (s : Schema) (db : DB) (body : JsonValue) (obsolete : Bool) : Except QErr Nat := do
  let filters ← parseFilter (nullishToEmpty body)
  let clauses ← addMatches s filters
  .ok (db.products.filter
    (fun p => obsoleteWhere obsolete p.obsolete && clauses.all (fun c => clauseMatches db c p.id))).length

/-- The aggregate pipeline stage extraction
`(body as any[]).find((o) => o[key])?.[key]`: the first stage whose value
under `key` is truthy, projected on that key.  The model reads stage
properties with the safe `getProp`, so it is exact for pipelines whose
elements are non-null; the service's bare `o[key]` access inside the
`find`/`some` callbacks raises a raw `TypeError` as soon as the iteration
reaches a `null` pipeline element, a path the theorems below do not
exercise. -/
def stageVal (body : List JsonValue) (key : String) : Option JsonValue :=
  (body.find? (fun o => optTruthy (getProp o key))).bind (fun o => getProp o key)

/-- `group['_id'].substring(1)` drops the leading `$` of the grouping
field reference. -/
def jsSubstring1 (s : String) : String := ⟨s.data.drop 1⟩

/-- The pseudo-tag rewrite `if (tag === 'users_tags') tag = 'creator'`. -/
def rewriteTag (tag : String) : String :=
  if tag = "users_tags" then "creator" else tag

/-- A `$limit`/`$skip` stage argument: applied only when truthy, and the
pipelines in use carry plain numbers. -/
def jsNatArg : Option JsonValue → Option Nat
  | some (.num n) => if n != 0 then some n.toNat else none
  | _ => none

/-- The column values of the rows of the aggregate's outer entity that
survive the obsolete predicate and all compiled clauses — the multiset the
grouping and distinct-count operate on. -/
def matchingVals (db : DB) (entity : Entity) (column : String)
    (clauses : List CompiledClause) (obsolete : Bool) : List JsonValue :=
  match entity with
  | .product =>
    (db.products.filter
      (fun p => obsoleteWhere obsolete p.obsolete && clauses.all (fun c => clauseMatches db c p.id))).map
      (fun p => p.fields column)
  | .tagTable t =>
    ((db.tagRows t).filter
      (fun r => obsoleteWhere obsolete r.obsolete && clauses.all (fun c => clauseMatches db c r.product_id))).map
      (fun r => r.value)

/-- Insertion step of the `ORDER BY count DESC` model. -/
def insertByCountDesc (p : JsonValue × Nat) : List (JsonValue × Nat) → List (JsonValue × Nat)
  | [] => [p]
  | q :: qs => if q.2 < p.2 then p :: q :: qs else q :: insertByCountDesc p qs

/-- Group the matching column values and order the facet rows by
descending count (the relative order of equal counts is unspecified by the
database; the model fixes one). -/
def groupRows (vals : List JsonValue) : List (JsonValue × Nat) :=
  (vals.dedup.map (fun v => (v, vals.count v))).foldr insertByCountDesc []

/-- `LIMIT l OFFSET k` paging of the facet rows. -/
def pageRows (rows : List (JsonValue × Nat)) (limit skip : Option Nat) :
    List (JsonValue × Nat) :=
  let afterSkip := match skip with
    | some k => rows.drop k
    | none => rows
  match limit with
  | some l => afterSkip.take l
  | none => afterSkip

/-- The two result shapes of `QueryService.aggregate`: count mode returns a
single mapping from the grouped tag name to a number; facet mode returns
(_id, count) rows. -/
inductive AggResult where
  | count (tag : String) (n : Nat)
  | rows (rs : List (JsonValue × Nat))
deriving DecidableEq

/-- `QueryService.aggregate`: extract the `$match`, `$group`, `$count`,
`$limit` and `$skip` stages; dereference the grouping key (a raw
`TypeError` when no truthy `$group` stage exists or its `_id` is not a
string); resolve the (rewritten) tag; compile the `$match` filter (a
missing `$match` stage makes `Object.entries(undefined)` raise a
`TypeError`, after tag resolution); then either count the distinct group
keys or return the grouped facet rows ordered by descending count with
paging.  `aggregateCore` is the part after the grouping-key dereference. -/
def aggregateCore (s : Schema) (db : DB) (tag : String) (mtch : Option JsonValue)
    (countFlag : Bool) (limit skip : Option Nat) (obsolete : Bool) :
    Except QErr AggResult := do
  let (entity, column) ← getEntityAndColumn s tag
  let filters ←
    match mtch with
    | some m => parseFilter m
    | none => .error (.typeError "cannot convert null or undefined to object")
  let clauses ← addMatches s filters
  let vals := matchingVals db entity column clauses obsolete
  if countFlag then
    .ok (.count tag vals.dedup.length)
  else
    .ok (.rows (pageRows (groupRows vals) limit skip))

def aggregate (s : Schema) (db : DB) (body : List JsonValue) (obsolete : Bool) :
    Except QErr AggResult :=
  match stageVal body "$group" with
  | none => .error (.typeError "cannot read _id of undefined")
  | some g =>
    match getProp g "_id" with
    | some (.str gid) =>
      aggregateCore s db (rewriteTag (jsSubstring1 gid)) (stageVal body "$match")
        (body.any (fun o => optTruthy (getProp o "$count")))
        (jsNatArg (stageVal body "$limit")) (jsNatArg (stageVal body "$skip")) obsolete
    | _ => .error (.typeError "substring is not a function")

/-- A document fetched back from the document store in `QueryService.find`
(only the fields the re-ordering loop consults are modelled). -/
structure MongoDoc where
  code : String
deriving DecidableEq

/-- JavaScript `Array.prototype.indexOf` returning `none` for `-1`. -/
def jsIndexOf : List String → String → Option Nat
  | [], _ => none
  | c :: cs, s => if c = s then some 0 else (jsIndexOf cs s).map (fun i => i + 1)

/-- JavaScript sparse-array index assignment `arr[i] = a`: in-range indices
are overwritten; assigning past the end pads the array with holes
(`none`) up to `i` and extends its length to `i + 1`. -/
def jsSet : List (Option MongoDoc) → Nat → MongoDoc → List (Option MongoDoc)
  | [], 0, a => [some a]
  | [], i + 1, a => none :: jsSet [] i a
  | _ :: xs, 0, a => some a :: xs
  | x :: xs, i + 1, a => x :: jsSet xs i a

/-- JavaScript array read `arr[j]` (`none` beyond the length or at a
hole). -/
def jsGet : List (Option MongoDoc) → Nat → Option MongoDoc
  | [], _ => none
  | x :: _, 0 => x
  | _ :: xs, j + 1 => jsGet xs j

/-- The document re-ordering loop of `QueryService.find`: each fetched
document whose code occurs in the rank-ordered code list is written at
that rank index of the result array (sparse assignment); a document whose
code is not in the list is appended.  The returned value models the
sparse `mongodbResults` array, where `none` is a hole (serialised as
`null`). -/
def placeResults (productCodes : List String) (docs : List MongoDoc) :
    List (Option MongoDoc) :=
  docs.foldl
    (fun acc d =>
      match jsIndexOf productCodes d.code with
      | some i => jsSet acc i d
      | none => acc ++ [some d])
    []

/-- Modelled from the spec: `MessagesService.messageTime` is not under
`src/`; reconstructed from spec section 4.2 and from its unit tests in
`src/unnamed/part_001` lines 7-36, which pin the precedence — an explicit
second-granularity `timestamp` field wins (test: id `100-0` with a
timestamp yields the timestamp, not `100`), else a numeric
epoch-millisecond id segment before the `-` separator, else the current
time; a malformed, `null` or missing id falls back without failing.
`parseInt` of the leading id segment is modelled on canonical digit-run
ids. -/
def idMillis (s : String) : Option Nat :=
  let seg := s.data.takeWhile (fun c => !(c == '-'))
  let digs := seg.takeWhile (fun c => c.isDigit)
  if digs.isEmpty then none
  else some (digs.foldl (fun n c => n * 10 + (c.toNat - 48)) 0)

/-- Modelled from the spec: see `idMillis` — the logical time of an event,
in epoch milliseconds; `msgId`/`timestamp` are `none` when the message
lacks them and `now` is the current time. -/
def messageTime (msgId : Option String) (timestamp : Option Nat) (now : Nat) : Nat :=
  match timestamp with
  | some t => t * 1000
  | none =>
    match msgId with
    | some s =>
      match idMillis s with
      | some ms => ms
      | none => now
    | none => now

/-- Modelled from the spec: the `ProductUpdate` insertion step of
`MessagesService.create` is not under `src/`; per spec sections 3 and 4.2
(step 5) a row keyed by (product reference, revision) is inserted only if
no row with that key exists, and a duplicate key is skipped silently — the
sole deduplication point.  An event is reduced to its resolved key. -/
structure UpdateEvent where
  product : Nat
  rev : Nat
deriving DecidableEq

/-- Modelled from the spec: see `UpdateEvent` — insert-or-skip of one
event's (product, revision) key into the `ProductUpdate` rows. -/
def ingestEvent (rows : List (Nat × Nat)) (e : UpdateEvent) : List (Nat × Nat) :=
  if (e.product, e.rev) ∈ rows then rows else rows ++ [(e.product, e.rev)]

/-- Modelled from the spec: see `UpdateEvent` — a batch processes its
events in order. -/
def ingestBatch (rows : List (Nat × Nat)) (events : List UpdateEvent) : List (Nat × Nat) :=
  events.foldl ingestEvent rows

/-- The `ProductUpdatesByOwner` view's update-count for one owner: the
number of `ProductUpdate` rows whose product belongs to the owner
(`owners` maps product ids to owner tags). -/
def updatesByOwnerCount (owners : Nat → String) (rows : List (Nat × Nat)) (owner : String) : Nat :=
  (rows.filter (fun pr => owners pr.1 == owner)).length

/-- A small concrete schema: `code` and `creator` are Product-flattened
fields, `brands_tags` is a loaded collection-valued tag. -/
def sampleSchema : Schema := ⟨["code", "creator"], ["brands_tags"], ["brands_tags"]⟩

/-- A mirror with no rows. -/
def emptyDB : DB := ⟨[], fun _ => []⟩

/-- A mirror with one non-obsolete and one obsolete product. -/
def sampleDB : DB :=
  ⟨[⟨1, "c1", false, fun _ => .str "c1"⟩, ⟨2, "c2", true, fun _ => .str "c2"⟩],
    fun _ => []⟩

/-- A mirror whose only product is obsolete. -/
def obsDB : DB := ⟨[⟨1, "c1", true, fun _ => .vnull⟩], fun _ => []⟩

theorem ingestBatch_cons (rows : List (Nat × Nat)) (e : UpdateEvent) (es : List UpdateEvent) :
    ingestBatch rows (e :: es) = ingestBatch (ingestEvent rows e) es := rfl

theorem ingestBatch_of_mem {p r : Nat} :
    ∀ (events : List UpdateEvent) (rows : List (Nat × Nat)),
      (∀ e ∈ events, e.product = p ∧ e.rev = r) →
      (p, r) ∈ rows → ingestBatch rows events = rows := by
  intro events
  induction events with
  | nil => intro rows _ _; rfl
  | cons e es ih =>
    intro rows hk hm
    obtain ⟨hp, hr⟩ := hk e (by simp)
    rw [ingestBatch_cons]
    have hstep : ingestEvent rows e = rows := by
      simp [ingestEvent, hp, hr, hm]
    rw [hstep]
    exact ih rows (fun x hx => hk x (by simp [hx])) hm

theorem ingestBatch_insert {p r : Nat} (rows : List (Nat × Nat))
    (e : UpdateEvent) (es : List UpdateEvent)
    (hk : ∀ x ∈ e :: es, x.product = p ∧ x.rev = r)
    (hm : (p, r) ∉ rows) :
    ingestBatch rows (e :: es) = rows ++ [(p, r)] := by
  obtain ⟨hp, hr⟩ := hk e (by simp)
  rw [ingestBatch_cons]
  have hstep : ingestEvent rows e = rows ++ [(p, r)] := by
    simp [ingestEvent, hp, hr, hm]
  rw [hstep]
  exact ingestBatch_of_mem es (rows ++ [(p, r)])
    (fun x hx => hk x (by simp [hx])) (by simp)

/-- Claim C1: for every pair of ingested events carrying the same product
code and the same revision, processing both — in any order, in one batch or
across batches, with any number of duplicates — leaves exactly one
`ProductUpdate` row for that (product, revision) pair, so the per-owner
update-count is incremented exactly once, and reprocessing the same
revision is a no-op. -/
theorem c1_product_update_dedup
    (rows : List (Nat × Nat)) (events : List UpdateEvent) (p r : Nat)
    (owners : Nat → String) (ow : String)
    (hk : ∀ e ∈ events, e.product = p ∧ e.rev = r) :
    ((p, r) ∈ rows → ingestBatch rows events = rows) ∧
    ((p, r) ∉ rows → events ≠ [] →
      ingestBatch rows events = rows ++ [(p, r)] ∧
      (ingestBatch rows events).count (p, r) = 1 ∧
      updatesByOwnerCount owners (ingestBatch rows events) ow =
        updatesByOwnerCount owners rows ow + (if owners p == ow then 1 else 0)) := by
  constructor
  · intro hm
    exact ingestBatch_of_mem events rows hk hm
  · intro hm hne
    cases events with
    | nil => exact absurd rfl hne
    | cons e es =>
      have hins := ingestBatch_insert rows e es hk hm
      refine ⟨hins, ?_, ?_⟩
      · rw [hins]
        simp [List.count_append, List.count_eq_zero.mpr hm]
      · rw [hins]
        by_cases howner : owners p == ow <;>
          simp [updatesByOwnerCount, List.filter_append, howner]

/-- Witness for C1 at a concrete input: two duplicate (1, 2) events on an
empty table leave exactly one row and one owner-count contribution. -/
theorem c1_product_update_dedup_witness :
    ingestBatch [] [⟨1, 2⟩, ⟨1, 2⟩] = [(1, 2)] ∧
    (ingestBatch [] [⟨1, 2⟩, ⟨1, 2⟩]).count (1, 2) = 1 := by
  have h := (c1_product_update_dedup [] [⟨1, 2⟩, ⟨1, 2⟩] 1 2 (fun _ => "o") "o"
    (by decide)).2 (by decide) (by decide)
  exact ⟨h.1, h.2.1⟩

/-- Claim C4, counterexample to the claim as stated: the claim gives the
numeric epoch-millisecond id prefix priority over the message timestamp,
but with id `100-0` (a valid numeric prefix `100`) and timestamp `55` the
derived time is `55000`, not `100` — exactly the behaviour the repository's
own `messageTime` unit test (`should use timestamp if provided`) pins
down. -/
theorem c4_message_time_cex :
    messageTime (some "100-0") (some 55) 7 = 55000 ∧ (55000 : Nat) ≠ 100 := by
  constructor
  · rfl
  · decide

/-- Claim C4 (amended): the explicit second-granularity timestamp field
takes precedence and is converted to milliseconds; otherwise a numeric
epoch-millisecond prefix of the event id before the separator is used;
otherwise the current time — and a malformed, null, or missing id never
causes processing to fail (the fallback is total). -/
theorem c4_message_time_amended :
    (∀ msgId t now, messageTime msgId (some t) now = t * 1000) ∧
    (∀ s ms now, idMillis s = some ms → messageTime (some s) none now = ms) ∧
    (∀ s now, idMillis s = none → messageTime (some s) none now = now) ∧
    (∀ now, messageTime none none now = now) := by
  refine ⟨fun _ _ _ => rfl, ?_, ?_, fun _ => rfl⟩
  · intro s ms now h
    simp [messageTime, h]
  · intro s now h
    simp [messageTime, h]

/-- Witness for C4 at concrete inputs: a well-formed id yields its prefix
when no timestamp is present, and a malformed id falls back to the
current time. -/
theorem c4_message_time_witness :
    messageTime (some "1234-0") none 7 = 1234 ∧
    messageTime (some "invalid") none 7 = 7 :=
  ⟨c4_message_time_amended.2.1 "1234-0" 1234 7 (by decide),
   c4_message_time_amended.2.2.1 "invalid" 7 (by decide)⟩

/-- Claim C9: every aggregate pipeline must contain a group stage — for any
pipeline without one (no stage with a truthy `$group` value), `aggregate`
dereferences the grouping key of an undefined stage and fails with a raw
`TypeError` (not the client-input `UnprocessableEntityException` path),
independently of the database, i.e. before issuing any query. -/
theorem c9_aggregate_requires_group
    (s : Schema) (db : DB) (body : List JsonValue) (obsolete : Bool)
    (h : ∀ o ∈ body, optTruthy (getProp o "$group") = false) :
    aggregate s db body obsolete = .error (.typeError "cannot read _id of undefined") := by
  have hfind : body.find? (fun o => optTruthy (getProp o "$group")) = none := by
    rw [List.find?_eq_none]
    intro o ho
    simp [h o ho]
  simp [aggregate, stageVal, hfind]

/-- Witness for C9 at a concrete input: the empty pipeline (and the
match-only pipeline) fail with the raw `TypeError`. -/
theorem c9_aggregate_requires_group_witness :
    aggregate sampleSchema sampleDB [.obj [("$match", .obj [])]] false =
      .error (.typeError "cannot read _id of undefined") :=
  c9_aggregate_requires_group sampleSchema sampleDB [.obj [("$match", .obj [])]] false
    (by decide)

/-- Flip the negation flag of a compiled clause (EXISTS becomes NOT
EXISTS and vice versa). -/
def flipNot (c : CompiledClause) : CompiledClause := ⟨c.entity, c.column, !c.not, c.value⟩

theorem findSentinel_no_object :
    ∀ L : List JsonValue, (∀ v ∈ L, isObject v = false) →
      findSentinel L = .ok (L.any isSentinel) := by
  intro L
  induction L with
  | nil => intro _; rfl
  | cons v rest ih =>
    intro h
    by_cases hv : isSentinel v = true
    · simp [findSentinel, hv]
    · simp [findSentinel, hv, h v (by simp), ih (fun x hx => h x (by simp [hx]))]

theorem compileClause_inop_eval (s : Schema) (t : String) (op : String) (L : List JsonValue)
    (ent : Entity) (col : String) (b : Bool)
    (hop : op = "$in" ∨ op = "$nin")
    (hEC : getEntityAndColumn s t = .ok (ent, col))
    (hne : L ≠ [])
    (hfs : findSentinel L = .ok b) :
    compileClause s t (.obj [(op, .arr L)]) =
      .ok (if b then
            (if ent = .product then ⟨ent, col, op == "$nin", .val .vnull⟩
             else ⟨ent, col, !(op == "$nin"), .none_⟩)
           else ⟨ent, col, op == "$nin", .inList L⟩) := by
  have hlen : truthy (.num (L.length : Int)) = true := by
    simp [truthy]
    exact hne
  rcases hop with h | h <;> subst h <;>
    simp [compileClause, hEC, effectiveValue, getProp, inShape, objKeys, optTruthy,
      jsIterate, hfs, hlen, List.lookup, Except.bind, isObject] <;>
    cases b <;> cases ent <;> rfl

/-- Claim C6: for every non-empty scalar list `L` and tag `t`, compiling
the clause `(t, not-in L)` yields exactly the same compiled predicate as
compiling `(t, in L)` with the clause's negation flag flipped (EXISTS
becomes NOT EXISTS and vice versa); when tag resolution fails, both fail
identically. -/
theorem c6_nin_equals_negated_in
    (s : Schema) (t : String) (L : List JsonValue)
    (hne : L ≠ []) (hsc : ∀ v ∈ L, isObject v = false) :
    compileClause s t (.obj [("$nin", .arr L)]) =
      (compileClause s t (.obj [("$in", .arr L)])).map flipNot := by
  have hfs := findSentinel_no_object L hsc
  rcases hEC : getEntityAndColumn s t with e | ⟨ent, col⟩
  · have h1 : compileClause s t (.obj [("$nin", .arr L)]) = .error e := by
      unfold compileClause
      rw [hEC]
      rfl
    have h2 : compileClause s t (.obj [("$in", .arr L)]) = .error e := by
      unfold compileClause
      rw [hEC]
      rfl
    rw [h1, h2]; rfl
  · rw [compileClause_inop_eval s t "$nin" L ent col (L.any isSentinel) (Or.inr rfl) hEC hne hfs,
      compileClause_inop_eval s t "$in" L ent col (L.any isSentinel) (Or.inl rfl) hEC hne hfs]
    cases hb : L.any isSentinel <;> cases ent <;> simp [flipNot, Except.map]

/-- Witness for C6 at concrete inputs: a not-in clause on a flattened
column and on a tag table each equal the negated in clause. -/
theorem c6_nin_equals_negated_in_witness :
    compileClause sampleSchema "code" (.obj [("$nin", .arr [.str "a"])]) =
      (compileClause sampleSchema "code" (.obj [("$in", .arr [.str "a"])])).map flipNot ∧
    compileClause sampleSchema "brands_tags" (.obj [("$nin", .arr [.str "a", .vnull])]) =
      (compileClause sampleSchema "brands_tags" (.obj [("$in", .arr [.str "a", .vnull])])).map flipNot :=
  ⟨c6_nin_equals_negated_in sampleSchema "code" [.str "a"] (by decide) (by decide),
   c6_nin_equals_negated_in sampleSchema "brands_tags" [.str "a", .vnull] (by decide) (by decide)⟩

/-- Claim C2, counterexample to the claim as stated: the claim promises an
absence test for every in/not-in list containing a null or empty-array
sentinel, but the element scan throws on a non-scalar element found before
the first sentinel — here `in [obj, null]` on a Product-flattened tag
raises the client-input error instead of compiling to an IS NULL test. -/
theorem c2_absence_sentinel_cex :
    compileClause sampleSchema "code"
        (.obj [("$in", .arr [.obj [("x", .num 1)], .vnull])]) =
      .error (.unprocessable "Unable to process value") := by decide

/-- Claim C2 (amended): for every in/not-in clause whose value list
reaches a null or empty-length sentinel — that is, every element before
the first sentinel is a scalar — compilation produces an absence test: on
a Product-flattened tag the compiled where-value is `null` (rendered as an
IS NULL test) with the clause's negation flag intact, and on a
collection-valued tag table the clause becomes a bare EXISTS / NOT EXISTS
with the negation flag flipped and no value comparison. -/
theorem c2_absence_sentinel
    (s : Schema) (t : String) (op : String) (items : List JsonValue)
    (ent : Entity) (col : String)
    (hop : op = "$in" ∨ op = "$nin")
    (hEC : getEntityAndColumn s t = .ok (ent, col))
    (hsen : findSentinel items = .ok true) :
    compileClause s t (.obj [(op, .arr items)]) =
      (if ent = .product then .ok ⟨ent, col, op == "$nin", .val .vnull⟩
       else .ok ⟨ent, col, op == "$in", .none_⟩) := by
  have hne : items ≠ [] := by
    intro h
    rw [h] at hsen
    exact absurd hsen (by decide)
  rw [compileClause_inop_eval s t op items ent col true hop hEC hne hsen]
  rcases hop with h | h <;> subst h <;> cases ent <;> simp

/-- Witness for C2 at concrete inputs: `in [null]` compiles to an IS NULL
where-value on the flattened `code` column, and to a flipped bare NOT
EXISTS on the `brands_tags` tag table. -/
theorem c2_absence_sentinel_witness :
    compileClause sampleSchema "code" (.obj [("$in", .arr [.vnull])]) =
      .ok ⟨.product, "code", false, .val .vnull⟩ ∧
    compileClause sampleSchema "brands_tags" (.obj [("$in", .arr [.vnull])]) =
      .ok ⟨.tagTable "brands_tags", "value", true, .none_⟩ := by
  have h1 := c2_absence_sentinel sampleSchema "code" "$in" [.vnull] .product "code"
    (Or.inl rfl) (by decide) (by decide)
  have h2 := c2_absence_sentinel sampleSchema "brands_tags" "$in" [.vnull]
    (.tagTable "brands_tags") "value" (Or.inl rfl) (by decide) (by decide)
  exact ⟨by simpa using h1, by simpa using h2⟩

/-- Claim C8: filter normalization is flattening — a conjunction-marker
(`$and`) entry whose value is an array of sub-filters normalizes to the
concatenation of the sub-filters' normalized clause lists (first
conjunct, expressed through `mapM`/`join`; second conjunct, spliced in
front of the remaining entries), and an `all-of` entry `(t, all-of
[v1..vk])` normalizes to the k clauses `(t, v1) .. (t, vk)`; the result is
always a flat list of (tag, value) pairs interpreted as a pure AND. -/
theorem c8_filter_flattening :
    (parseFilterList [] = .ok [] ∧
     ∀ (sub : JsonValue) (subs : List JsonValue) L1 L,
      parseFilter sub = .ok L1 →
      parseFilterList subs = .ok L →
      parseFilterList (sub :: subs) = .ok (L1 ++ L)) ∧
    (∀ (subs : List JsonValue) (rest : List (String × JsonValue)) L R,
      parseFilterList subs = .ok L →
      parseFilterFields rest = .ok R →
      parseFilter (.obj (("$and", .arr subs) :: rest)) = .ok (L ++ R)) ∧
    (∀ (t : String) (vs : List JsonValue) (rest : List (String × JsonValue)) R,
      t ≠ "$and" →
      parseFilterFields rest = .ok R →
      parseFilter (.obj ((t, .obj [("$all", .arr vs)]) :: rest)) =
        .ok (vs.map (fun v => (t, v)) ++ R)) := by
  refine ⟨⟨rfl, ?_⟩, ?_, ?_⟩
  · intro sub subs L1 L h1 h2
    rw [parseFilterList, h1, h2]
    rfl
  · intro subs rest L R hL hR
    rw [parseFilter, parseFilterFields]
    simp [hL, hR, Except.bind]
    rfl
  · intro t vs rest R ht hR
    rw [parseFilter, parseFilterFields]
    simp [ht, hR, Except.bind, parseFilterField, getProp, List.lookup, truthy, jsIterate]
    all_goals try rfl
    all_goals (intros; simp_all)

/-- Witness for C8 at a concrete input: an `$and` of two sub-filters and an
`$all` list both flatten to plain clause lists. -/
theorem c8_filter_flattening_witness :
    parseFilter (.obj [("$and",
        .arr [.obj [("a", .str "v1")], .obj [("b", .str "v2")]])]) =
      .ok [("a", .str "v1"), ("b", .str "v2")] ∧
    parseFilter (.obj [("t", .obj [("$all", .arr [.str "v1", .str "v2"])])]) =
      .ok [("t", .str "v1"), ("t", .str "v2")] := by
  have h1 := c8_filter_flattening.2.1 [.obj [("a", .str "v1")], .obj [("b", .str "v2")]]
    [] [("a", .str "v1"), ("b", .str "v2")] [] (by decide) rfl
  have h2 := c8_filter_flattening.2.2 "t" [.str "v1", .str "v2"] []
    [] (by decide) rfl
  exact ⟨by simpa using h1, by simpa using h2⟩

/-- The element scan hits a non-scalar element before any null/empty
sentinel. -/
def hasObjectBeforeSentinel : List JsonValue → Bool
  | [] => false
  | v :: rest =>
    if isSentinel v then false
    else if isObject v then true
    else hasObjectBeforeSentinel rest

/-- The clause shapes enumerated as client-input compilation failures: a
failed tag resolution (unknown tag, or collection-valued tag absent from
the loaded-tag registry), an effective value that is an object or array
failing the single-key in/not-in shape with the unprocessable error (not
exactly one key, an operator other than in/not-in, or a non-null operand
with falsy length), or an in/not-in list with a non-scalar element before
any absence sentinel.  The raw-`TypeError` paths — a `null` operand's
length dereference and a non-iterable truthy-length operand — are
deliberately excluded: they are not the client-input error path. -/
def badClause (s : Schema) (t : String) (v : JsonValue) : Bool :=
  match getEntityAndColumn s t with
  | .error _ => true
  | .ok _ =>
    match effectiveValue v with
    | (_, wv) =>
      isObject wv &&
        (match inShape wv with
         | .error (.unprocessable _) => true
         | .error (.typeError _) => false
         | .ok (_, opVal) =>
           match jsIterate opVal with
           | some items => hasObjectBeforeSentinel items
           | none => false)

theorem getEntityAndColumn_error_unprocessable (s : Schema) (t : String) (e : QErr)
    (h : getEntityAndColumn s t = .error e) : ∃ m, e = .unprocessable m := by
  unfold getEntityAndColumn at h
  split at h
  · cases h
  · split at h
    · split at h
      · cases h
      · exact ⟨"Tag is not loaded", by injection h with h2; exact h2.symm⟩
    · exact ⟨"Tag is not supported", by injection h with h2; exact h2.symm⟩

theorem compileClause_resolution_error (s : Schema) (t : String) (v : JsonValue) (e : QErr)
    (hEC : getEntityAndColumn s t = .error e) : compileClause s t v = .error e := by
  unfold compileClause
  rw [hEC]
  rfl

theorem hasObjectBeforeSentinel_findSentinel :
    ∀ items : List JsonValue, hasObjectBeforeSentinel items = true →
      findSentinel items = .error (.unprocessable "Unable to process value") := by
  intro items
  induction items with
  | nil => intro h; cases h
  | cons v rest ih =>
    intro h
    by_cases hs : isSentinel v = true
    · rw [hasObjectBeforeSentinel] at h
      simp [hs] at h
    · by_cases ho : isObject v = true
      · simp [findSentinel, hs, ho]
      · rw [hasObjectBeforeSentinel] at h
        simp [hs, ho] at h
        simp [findSentinel, hs, ho, ih h]

theorem badClause_compile_error (s : Schema) (t : String) (v : JsonValue)
    (h : badClause s t v = true) :
    ∃ m, compileClause s t v = .error (.unprocessable m) := by
  unfold badClause at h
  rcases hEC : getEntityAndColumn s t with e | ⟨ent, col⟩
  · obtain ⟨m, hm⟩ := getEntityAndColumn_error_unprocessable s t e hEC
    exact ⟨m, by rw [compileClause_resolution_error s t v e hEC, hm]⟩
  · rw [hEC] at h
    rcases hev : effectiveValue v with ⟨not1, wv⟩
    rw [hev] at h
    simp only [Bool.and_eq_true] at h
    obtain ⟨hobj, hrest⟩ := h
    unfold compileClause
    rw [hEC]
    simp only [Except.bind]
    rw [hev]
    simp only [hobj, if_true]
    rcases hsh : inShape wv with e2 | ⟨op, opVal⟩
    · rcases e2 with m2 | m2
      · exact ⟨m2, rfl⟩
      · rw [hsh] at hrest
        exact absurd hrest Bool.noConfusion
    · have hrest2 : (match jsIterate opVal with
          | some items => hasObjectBeforeSentinel items
          | none => false) = true := by
        rw [hsh] at hrest
        exact hrest
      rcases hit : jsIterate opVal with _ | items
      · rw [hit] at hrest2; cases hrest2
      · rw [hit] at hrest2
        simp only at hrest2
        have hfs := hasObjectBeforeSentinel_findSentinel items hrest2
        refine ⟨"Unable to process value", ?_⟩
        simp only [hit, hfs]
        rfl

theorem addMatches_bad_error (s : Schema) :
    ∀ (pre : List (String × JsonValue)) (t : String) (v : JsonValue)
      (post : List (String × JsonValue)),
      (∀ p ∈ pre, ∃ c, compileClause s p.1 p.2 = .ok c) →
      badClause s t v = true →
      ∃ m, addMatches s (pre ++ (t, v) :: post) = .error (.unprocessable m) := by
  intro pre
  induction pre with
  | nil =>
    intro t v post _ hbad
    obtain ⟨m, hm⟩ := badClause_compile_error s t v hbad
    refine ⟨m, ?_⟩
    rw [List.nil_append, addMatches, hm]
    rfl
  | cons p ps ih =>
    intro t v post hok hbad
    obtain ⟨pt, pv⟩ := p
    obtain ⟨c, hc⟩ := hok (pt, pv) (by simp)
    obtain ⟨m, hm⟩ := ih t v post (fun q hq => hok q (by simp [hq])) hbad
    refine ⟨m, ?_⟩
    rw [List.cons_append, addMatches, hc, hm]
    rfl

/-- Claim C5, counterexample to the claim as stated: a non-scalar list
element does not always make compilation fail — when a null/empty
sentinel precedes it, the absence branch exits the scan first, and `count`
returns a result instead of throwing. -/
theorem c5_compilation_failures_cex :
    count sampleSchema emptyDB
        (.obj [("code", .obj [("$in", .arr [.vnull, .obj [("x", .num 1)]])])]) false =
      .ok 0 := by decide

/-- Claim C5 (amended): every client-input compilation failure — a clause
whose effective value (after not-equal unwrapping) is an object or array
that is not a single-key in/not-in, or a single-key in/not-in whose
non-null operand has a falsy length (the empty list among them), or an
in/not-in list with a non-scalar element before any null/empty absence
sentinel, or an unknown tag, or a collection-valued tag absent from the
loaded-tag registry — makes `count`, `select` and `aggregate` fail with
the synchronous client-input error (`UnprocessableEntityException`) and
return no partial results, provided the clauses before the failing one
compile.  Excluded are the raw-`TypeError` paths: a `null` in/not-in
operand (the `length` dereference of `null`), a non-iterable truthy-length
operand, and a `null` clause value (which already fails in `parseFilter`
at the `$all` access, so it never reaches clause compilation). -/
theorem c5_compilation_failures
    (s : Schema) (db : DB) (body : JsonValue) (obsolete : Bool)
    (pre : List (String × JsonValue)) (t : String) (v : JsonValue)
    (post : List (String × JsonValue)) (filters : List (String × JsonValue))
    (hpf : parseFilter body = .ok filters)
    (hsplit : filters = pre ++ (t, v) :: post)
    (hok : ∀ p ∈ pre, ∃ c, compileClause s p.1 p.2 = .ok c)
    (hbad : badClause s t v = true) :
    (∃ m, count s db body obsolete = .error (.unprocessable m)) ∧
    (∃ m, select s db body = .error (.unprocessable m)) ∧
    (∀ gid ent col,
      truthy body = true →
      getEntityAndColumn s (rewriteTag (jsSubstring1 gid)) = .ok (ent, col) →
      ∃ m, aggregate s db
          [.obj [("$match", body)], .obj [("$group", .obj [("_id", .str gid)])]] obsolete =
        .error (.unprocessable m)) := by
  obtain ⟨m, hm⟩ := addMatches_bad_error s pre t v post hok hbad
  rw [← hsplit] at hm
  have hnn : body ≠ .vnull := by
    intro h
    rw [h] at hpf
    exact absurd hpf (by simp [parseFilter])
  have hbody : nullishToEmpty body = body := by
    cases body <;> first | rfl | exact absurd rfl hnn
  refine ⟨⟨m, ?_⟩, ⟨m, ?_⟩, ?_⟩
  · unfold count
    rw [hbody]
    simp only [hpf, exceptBind_ok, hm, exceptBind_err]
  · unfold select
    simp only [hpf, exceptBind_ok, hm, exceptBind_err]
  · intro gid ent col htb hEC
    refine ⟨m, ?_⟩
    have hmt : stageVal
        [.obj [("$match", body)], .obj [("$group", .obj [("_id", .str gid)])]] "$match" =
        some body := by
      have hfind : List.find? (fun o => optTruthy (getProp o "$match"))
          [JsonValue.obj [("$match", body)],
           JsonValue.obj [("$group", .obj [("_id", .str gid)])]] =
          some (JsonValue.obj [("$match", body)]) :=
        List.find?_cons_of_pos _ (by simpa [getProp, optTruthy] using htb)
      simp only [stageVal, hfind]
      rfl
    have hred : aggregate s db
        [.obj [("$match", body)], .obj [("$group", .obj [("_id", .str gid)])]] obsolete =
        aggregateCore s db (rewriteTag (jsSubstring1 gid))
          (stageVal [.obj [("$match", body)],
            .obj [("$group", .obj [("_id", .str gid)])]] "$match")
          ([JsonValue.obj [("$match", body)],
            JsonValue.obj [("$group", .obj [("_id", .str gid)])]].any
            (fun o => optTruthy (getProp o "$count")))
          (jsNatArg (stageVal [JsonValue.obj [("$match", body)],
            JsonValue.obj [("$group", .obj [("_id", .str gid)])]] "$limit"))
          (jsNatArg (stageVal [JsonValue.obj [("$match", body)],
            JsonValue.obj [("$group", .obj [("_id", .str gid)])]] "$skip")) obsolete := rfl
    rw [hred, hmt]
    unfold aggregateCore
    simp only [hEC, exceptBind_ok, hpf, hm, exceptBind_err]

/-- Witness for C5 at a concrete input: an unsupported operator object
makes `count`, `select` and `aggregate` all raise the client-input
error. -/
theorem c5_compilation_failures_witness :
    (∃ m, count sampleSchema emptyDB
        (.obj [("code", .obj [("$gt", .num 1)])]) false = .error (.unprocessable m)) ∧
    (∃ m, select sampleSchema emptyDB
        (.obj [("code", .obj [("$gt", .num 1)])]) = .error (.unprocessable m)) ∧
    (∃ m, aggregate sampleSchema emptyDB
        [.obj [("$match", .obj [("code", .obj [("$gt", .num 1)])])],
         .obj [("$group", .obj [("_id", .str "$creator")])]] false =
      .error (.unprocessable m)) := by
  have h := c5_compilation_failures sampleSchema emptyDB
    (.obj [("code", .obj [("$gt", .num 1)])]) false
    [] "code" (.obj [("$gt", .num 1)]) [] [("code", .obj [("$gt", .num 1)])]
    (by decide) rfl (by simp) (by decide)
  exact ⟨h.1, h.2.1, h.2.2 "$creator" .product "creator" (by decide) (by decide)⟩

-- The raw-TypeError paths that are not client-input failures: a null
-- in/not-in operand fails at the `null.length` dereference, and a null
-- clause value fails at the `null['$all']` access during filter
-- normalisation, before tag resolution; neither is an
-- UnprocessableEntityException, and neither shape is a `badClause`.
example : compileClause sampleSchema "code" (.obj [("$in", .vnull)]) =
    .error (.typeError "cannot read length of null") := by decide

example : count sampleSchema emptyDB (.obj [("code", .obj [("$in", .vnull)])]) false =
    .error (.typeError "cannot read length of null") := by decide

example : parseFilter (.obj [("sometag", .vnull)]) =
    .error (.typeError "cannot read properties of null") := by decide

example : select sampleSchema emptyDB (.obj [("unknowntag", .vnull)]) =
    .error (.typeError "cannot read properties of null") := rfl

example : badClause sampleSchema "code" (.obj [("$in", .vnull)]) = false := by decide

/-- Claim C7: for every aggregate pipeline containing a count stage,
`aggregate` returns a single result mapping the grouped tag name to the
number of distinct group-key values (distinct values of the resolved
column) among the matching rows — not a list of per-facet counts. -/
theorem c7_aggregate_count_distinct
    (s : Schema) (db : DB) (body : List JsonValue) (obsolete : Bool)
    (g : JsonValue) (gid : String) (ent : Entity) (col : String)
    (m : JsonValue) (filters : List (String × JsonValue)) (clauses : List CompiledClause)
    (hg : stageVal body "$group" = some g)
    (hid : getProp g "_id" = some (.str gid))
    (hEC : getEntityAndColumn s (rewriteTag (jsSubstring1 gid)) = .ok (ent, col))
    (hmt : stageVal body "$match" = some m)
    (hpf : parseFilter m = .ok filters)
    (ham : addMatches s filters = .ok clauses)
    (hcf : body.any (fun o => optTruthy (getProp o "$count")) = true) :
    aggregate s db body obsolete =
      .ok (.count (rewriteTag (jsSubstring1 gid))
        (matchingVals db ent col clauses obsolete).toFinset.card) := by
  rw [List.card_toFinset]
  unfold aggregate
  simp only [hg, hid]
  unfold aggregateCore
  simp only [hEC, exceptBind_ok, hmt, hpf, ham, hcf, if_true]

/-- Witness for C7 at a concrete input: a count-stage pipeline grouped on
the flattened `code` column returns the single mapping from `code` to the
number of distinct codes among non-obsolete products. -/
theorem c7_aggregate_count_distinct_witness :
    aggregate sampleSchema sampleDB
      [.obj [("$match", .obj [])],
       .obj [("$group", .obj [("_id", .str "$code")])],
       .obj [("$count", .num 1)]] false = .ok (.count "code" 1) := by
  have h := c7_aggregate_count_distinct sampleSchema sampleDB
    [.obj [("$match", .obj [])],
     .obj [("$group", .obj [("_id", .str "$code")])],
     .obj [("$count", .num 1)]] false
    (.obj [("_id", .str "$code")]) "$code" .product "code"
    (.obj []) [] []
    (by decide) (by decide) (by decide) (by decide) (by decide) (by decide) (by decide)
  exact h.trans (by decide)

theorem length_filter_obsolete_split (ps : List ProductRow) (A : ProductRow → Bool) :
    (ps.filter (fun p => obsoleteWhere false p.obsolete && A p)).length +
      (ps.filter (fun p => obsoleteWhere true p.obsolete && A p)).length =
      (ps.filter A).length := by
  have hof : ∀ x, obsoleteWhere false x = !x := fun _ => rfl
  have hot : ∀ x, obsoleteWhere true x = x := fun _ => rfl
  simp only [hof, hot]
  induction ps with
  | nil => rfl
  | cons p rest ih =>
    by_cases ho : p.obsolete <;> by_cases hA : A p <;>
      simp [List.filter_cons, ho, hA] <;> omega

/-- Claim C10: `select` applies no obsolete-flag restriction — for every
filter it returns matching products whether obsolete or not — whereas
`count` always ANDs in the `obsoleteWhere` predicate: for the same body,
the obsolete-excluding and obsolete-only counts partition exactly the
rows `select` returns, and on a mirror whose only matching product is
obsolete, `select` returns strictly more products than the default
`count` counts. -/
theorem c10_select_ignores_obsolete :
    (∀ (s : Schema) (db : DB) (body : JsonValue) (n1 n2 : Nat) (l : List ProductRow),
      count s db body false = .ok n1 →
      count s db body true = .ok n2 →
      select s db body = .ok l →
      n1 + n2 = l.length) ∧
    (count sampleSchema obsDB (.obj []) false = .ok 0 ∧
     select sampleSchema obsDB (.obj []) = .ok obsDB.products ∧
     0 < obsDB.products.length) := by
  constructor
  · intro s db body n1 n2 l h1 h2 h3
    rcases hpf : parseFilter body with e | filters
    · unfold select at h3
      simp only [hpf, exceptBind_err] at h3
      cases h3
    · have hnn : body ≠ .vnull := by
        intro h
        rw [h] at hpf
        exact absurd hpf (by simp [parseFilter])
      have hbody : nullishToEmpty body = body := by
        cases body <;> first | rfl | exact absurd rfl hnn
      rcases ham : addMatches s filters with e2 | clauses
      · unfold select at h3
        simp only [hpf, exceptBind_ok, ham, exceptBind_err] at h3
        cases h3
      · unfold count at h1 h2
        unfold select at h3
        simp only [hbody, hpf, exceptBind_ok, ham, exceptBind_err, Except.ok.injEq] at h1 h2 h3
        have hsplit := length_filter_obsolete_split db.products
          (fun p => clauses.all (fun c => clauseMatches db c p.id))
        rw [h1, h2, h3] at hsplit
        exact hsplit
  · exact ⟨rfl, rfl, by decide⟩

/-- Witness for C10 at a concrete input: on the obsolete-only mirror the
two counts 0 and 1 sum to the one row `select` returns. -/
theorem c10_select_ignores_obsolete_witness :
    0 + 1 = obsDB.products.length :=
  c10_select_ignores_obsolete.1 sampleSchema obsDB (.obj []) 0 1 obsDB.products rfl rfl rfl

theorem jsGet_jsSet : ∀ (l : List (Option MongoDoc)) (i : Nat) (a : MongoDoc) (j : Nat),
    jsGet (jsSet l i a) j = if j = i then some a else jsGet l j
  | [], 0, _, 0 => rfl
  | [], 0, _, _ + 1 => by simp [jsSet, jsGet]
  | [], _ + 1, _, 0 => by simp [jsSet, jsGet]
  | [], i + 1, a, j + 1 => by
    have h := jsGet_jsSet [] i a j
    simp [jsSet, jsGet, h]
  | _ :: _, 0, _, 0 => rfl
  | _ :: xs, 0, _, j + 1 => by simp [jsSet, jsGet]
  | x :: xs, _ + 1, _, 0 => by simp [jsSet, jsGet]
  | x :: xs, i + 1, a, j + 1 => by
    have h := jsGet_jsSet xs i a j
    simp [jsSet, jsGet, h]

theorem jsIndexOf_get :
    ∀ (codes : List String) (x : String) (i : Nat),
      jsIndexOf codes x = some i → codes.get? i = some x := by
  intro codes
  induction codes with
  | nil => intro x i h; cases h
  | cons c cs ih =>
    intro x i h
    rw [jsIndexOf] at h
    by_cases hc : c = x
    · simp only [hc, if_pos rfl] at h
      injection h with h2
      subst h2
      simp [List.get?, hc]
    · rw [if_neg hc] at h
      obtain ⟨i2, hi2, rfl⟩ := Option.map_eq_some'.mp h
      simpa [List.get?] using ih x i2 hi2

theorem jsIndexOf_of_get :
    ∀ (codes : List String), codes.Nodup →
      ∀ (j : Nat) (x : String), codes.get? j = some x → jsIndexOf codes x = some j := by
  intro codes
  induction codes with
  | nil => intro _ j x h; cases h
  | cons c cs ih =>
    intro hnd j x hj
    cases j with
    | zero =>
      injection hj with h2
      subst h2
      simp [jsIndexOf]
    | succ j =>
      have hj2 : cs.get? j = some x := hj
      have hx : x ∈ cs := List.get?_mem hj2
      have hc : c ≠ x := by
        intro h
        subst h
        exact (List.nodup_cons.mp hnd).1 hx
      rw [jsIndexOf, if_neg hc, ih (List.nodup_cons.mp hnd).2 j x hj2]
      rfl

theorem find?_append_self :
    ∀ (processed : List MongoDoc) (d : MongoDoc),
      d.code ∉ processed.map MongoDoc.code →
      (processed ++ [d]).find? (fun x => x.code == d.code) = some d := by
  intro processed
  induction processed with
  | nil => intro d _; simp [List.find?]
  | cons p ps ih =>
    intro d h
    simp only [List.map_cons, List.mem_cons] at h
    push_neg at h
    have hp : (p.code == d.code) = false := by
      simp
      exact fun hh => h.1 hh.symm
    simp only [List.cons_append, List.find?_cons, hp]
    exact ih d h.2

theorem find?_append_other :
    ∀ (processed : List MongoDoc) (d : MongoDoc) (c : String),
      d.code ≠ c →
      (processed ++ [d]).find? (fun x => x.code == c) =
        processed.find? (fun x => x.code == c) := by
  intro processed
  induction processed with
  | nil =>
    intro d c h
    have hb : (d.code == c) = false := by simpa using h
    simp [List.find?, hb]
  | cons p ps ih =>
    intro d c h
    by_cases hp : (p.code == c) = true
    · simp [List.find?_cons, hp]
    · simp only [Bool.not_eq_true] at hp
      simp [List.find?_cons, hp, ih d c h]

theorem place_invariant (codes : List String) (hnd : codes.Nodup) :
    ∀ (docs : List MongoDoc) (acc : List (Option MongoDoc)) (processed : List MongoDoc),
      (∀ d ∈ docs, d.code ∈ codes) →
      ((processed ++ docs).map MongoDoc.code).Nodup →
      (∀ j, jsGet acc j =
        (codes.get? j).bind (fun c => processed.find? (fun x => x.code == c))) →
      ∀ j, jsGet (docs.foldl (fun acc2 d =>
          match jsIndexOf codes d.code with
          | some i => jsSet acc2 i d
          | none => acc2 ++ [some d]) acc) j =
        (codes.get? j).bind (fun c => (processed ++ docs).find? (fun x => x.code == c)) := by
  intro docs
  induction docs with
  | nil =>
    intro acc processed _ _ hinv j
    simpa using hinv j
  | cons d ds ih =>
    intro acc processed hmem hnodup hinv j
    obtain ⟨i0, hi0⟩ : ∃ i0, jsIndexOf codes d.code = some i0 := by
      obtain ⟨n, hn⟩ := List.mem_iff_get?.mp (hmem d (by simp))
      exact ⟨n, jsIndexOf_of_get codes hnd n d.code hn⟩
    have hdc : d.code ∉ processed.map MongoDoc.code := by
      have h2 : (processed.map MongoDoc.code ++
          d.code :: ds.map MongoDoc.code).Nodup := by simpa using hnodup
      have h3 := (List.nodup_append.mp h2).2.2
      intro hmem2
      exact h3 hmem2 (by simp)
    have hassoc : processed ++ d :: ds = (processed ++ [d]) ++ ds := by simp
    rw [List.foldl_cons, hi0, hassoc]
    apply ih (jsSet acc i0 d) (processed ++ [d])
      (fun x hx => hmem x (by simp [hx]))
      (by rw [← hassoc]; exact hnodup)
    intro j2
    rw [jsGet_jsSet]
    by_cases hj : j2 = i0
    · subst hj
      rw [jsIndexOf_get codes d.code j2 hi0]
      rw [if_pos rfl]
      exact (find?_append_self processed d hdc).symm
    · rw [if_neg hj]
      rcases hg : codes.get? j2 with _ | c
      · rw [hinv j2, hg]
        rfl
      · have hcd : d.code ≠ c := by
          intro h
          subst h
          exact hj (by
            have h4 := jsIndexOf_of_get codes hnd j2 d.code hg
            rw [hi0] at h4
            injection h4 with h2
            exact h2.symm)
        rw [hinv j2, hg]
        show processed.find? (fun x => x.code == c) =
          (processed ++ [d]).find? (fun x => x.code == c)
        exact (find?_append_other processed d c hcd).symm

/-- Claim C3, counterexample to the claim as stated: when a code present
in the mirror's rank list is absent from the document-store result set but
a later-ranked code is present, the sparse index assignment leaves a hole
at the missing rank — the returned array is `[null, record]`, a gap, not a
gap-free list. -/
theorem c3_find_rank_order_cex :
    placeResults ["a", "b"] [⟨"b"⟩] = [none, some ⟨"b"⟩] ∧
    placeResults ["a", "b"] [⟨"b"⟩] ≠ [some ⟨"b"⟩] := by decide

/-- Claim C3 (amended): for every paginated popularity lookup, given the
rank-ordered code list resolved from the relational mirror (distinct
codes) and the documents fetched from the document store (distinct codes,
each among the resolved codes), the slot at each rank index holds exactly
the document bearing that rank's code — so the returned records appear in
exactly the mirror's rank order — and a code absent from the
document-store result set leaves `none` at its rank position (a `null`
hole once serialised) rather than being skipped; ranks past the last
fetched document yield no slot at all. -/
theorem c3_find_rank_order
    (codes : List String) (docs : List MongoDoc)
    (hnd : codes.Nodup)
    (hmem : ∀ d ∈ docs, d.code ∈ codes)
    (hdn : (docs.map MongoDoc.code).Nodup) (j : Nat) :
    jsGet (placeResults codes docs) j =
      (codes.get? j).bind (fun c => docs.find? (fun x => x.code == c)) := by
  have hbase : ∀ j2, jsGet ([] : List (Option MongoDoc)) j2 =
      (codes.get? j2).bind (fun c =>
        ([] : List MongoDoc).find? (fun x => x.code == c)) := by
    intro j2
    cases codes.get? j2 <;> simp [jsGet]
  have h := place_invariant codes hnd docs [] [] hmem (by simpa using hdn) hbase j
  simpa [placeResults] using h

/-- Witness for C3 at a concrete input: with rank list `[a, b]` and only
the `b` document fetched, rank 0 is a hole and rank 1 holds `b`. -/
theorem c3_find_rank_order_witness :
    jsGet (placeResults ["a", "b"] [⟨"b"⟩]) 0 = none ∧
    jsGet (placeResults ["a", "b"] [⟨"b"⟩]) 1 = some ⟨"b"⟩ := by
  have h0 := c3_find_rank_order ["a", "b"] [⟨"b"⟩] (by decide) (by decide) (by decide) 0
  have h1 := c3_find_rank_order ["a", "b"] [⟨"b"⟩] (by decide) (by decide) (by decide) 1
  exact ⟨by simpa using h0, by simpa using h1⟩
